import Mathlib

/-!
Verification of the state-cell contract and the two demo views
(Counter and GreetUser) of the ReactJS-Hooks repository.

The repository's own files are the two view components; the state
primitive they call (`useState`'s cell, the batching rendering host)
is external framework code, so those parts are modelled from the
specification's words, while the two views are translated from the
JSX source.
-/

/-- A primitive JavaScript value: a string or a number. -/
inductive JVal where
  | str (s : String)
  | num (n : Int)
deriving DecidableEq

/-- A JavaScript object, as an association list of field name to value.
A field is absent exactly when its key does not occur. -/
abbrev JObj := List (String × JVal)

/-- Spec-contrast definition (the class-component `setState` behaviour the
spec says replace is NOT): shallow merge of two objects, fields of the
second overriding fields of the first, as in the JS spread of old then new. -/
def shallowMerge (old upd : JObj) : JObj :=
  old.filter (fun kv => (upd.lookup kv.1).isNone) ++ upd

/-- Modelled from the spec: a StateCell holds one current value and a
monotonic generation marker (spec section 3, DATA MODEL); the cell itself
is framework code not present in the repository's sources. -/
structure StateCell (T : Type) where
  value : T
  generation : Nat

/-- Modelled from the spec: the argument of `replace(next : T | (T -> T))` —
either a plain value or a function of the previous value. -/
inductive Update (T : Type) where
  | val (v : T)
  | fn (f : T → T)

/-- Modelled from the spec: the value produced by one update when the host
applies it — a value-form update overwrites, a function-form update is
applied to the value current at application time. -/
def applyUpdate {T : Type} (u : Update T) (cur : T) : T :=
  match u with
  | .val v => v
  | .fn f => f cur

/-- Modelled from the spec: `replace` sets the value per the update form
and increments the generation marker. -/
def replace {T : Type} (c : StateCell T) (u : Update T) : StateCell T :=
  { value := applyUpdate u c.value, generation := c.generation + 1 }

/-- Modelled from the spec: `read()` returns the current value. -/
def StateCell.read {T : Type} (c : StateCell T) : T :=
  c.value

/-- Modelled from the spec: the host applies a batch of queued replace
calls in call order, each against the value left by the previous one. -/
def applyBatch {T : Type} (c : StateCell T) (us : List (Update T)) : StateCell T :=
  us.foldl replace c

/-- Modelled from the spec: the observable operations on a cell are `read`
and `replace`; `stepOp` is the one-step semantics, returning the next cell
state and the value read, if any. -/
inductive CellOp (T : Type) where
  | readOp
  | replaceOp (u : Update T)

/-- Modelled from the spec: one step of a cell operation. -/
def stepOp {T : Type} (c : StateCell T) : CellOp T → StateCell T × Option T
  | .readOp => (c, some c.read)
  | .replaceOp u => (replace c u, none)

/- Basic batch lemmas, shared by several claim theorems. -/

theorem applyBatch_append {T : Type} (c : StateCell T) (us vs : List (Update T)) :
    applyBatch c (us ++ vs) = applyBatch (applyBatch c us) vs := by
  simp [applyBatch, List.foldl_append]

theorem applyBatch_nil {T : Type} (c : StateCell T) : applyBatch c [] = c := rfl

theorem applyBatch_cons {T : Type} (c : StateCell T) (u : Update T)
    (us : List (Update T)) : applyBatch c (u :: us) = applyBatch (replace c u) us := rfl

theorem applyBatch_fns_value {T : Type} (c : StateCell T) (fs : List (T → T)) :
    (applyBatch c (fs.map Update.fn)).value = fs.foldl (fun a f => f a) c.value := by
  induction fs generalizing c with
  | nil => rfl
  | cons f fs ih =>
      simp only [List.map_cons, applyBatch_cons, List.foldl_cons]
      exact ih (replace c (Update.fn f))

theorem applyBatch_generation {T : Type} (c : StateCell T) (us : List (Update T)) :
    (applyBatch c us).generation = c.generation + us.length := by
  induction us generalizing c with
  | nil => rfl
  | cons u us ih =>
      simp only [applyBatch_cons, List.length_cons, ih, replace]
      omega

theorem applyBatch_replicate_val_value {T : Type} (c : StateCell T) (v : T) (k : Nat) :
    (applyBatch c (List.replicate (k + 1) (Update.val v))).value = v := by
  induction k generalizing c with
  | zero => rfl
  | succ n ih =>
      rw [List.replicate_succ, applyBatch_cons]
      exact ih (replace c (Update.val v))

/-- The composite value of the spec scenario: the object
with name John and age 30. -/
def johnObj : JObj := [("name", JVal.str "John"), ("age", JVal.num 30)]

/-- The replacement object of the spec scenario: an object holding only age 31. -/
def age31Obj : JObj := [("age", JVal.num 31)]

/-- Claim C1: value-form replaces are last-write-wins with no merging:
after any sequence of value-form replace calls ending in v, read returns
exactly v; in the concrete composite scenario, replacing the John object
by the object holding only age 31 yields exactly that object, with the
name field absent, and not the shallow merge of the two. -/
theorem stateCell_value_replace_last_write_wins :
    (∀ (T : Type) (c : StateCell T) (vs : List T) (v : T),
      (applyBatch c ((vs ++ [v]).map Update.val)).read = v)
    ∧ (applyBatch (StateCell.mk johnObj 0) [Update.val age31Obj]).read = age31Obj
    ∧ (age31Obj.lookup "name") = none
    ∧ (applyBatch (StateCell.mk johnObj 0) [Update.val age31Obj]).read ≠
        shallowMerge johnObj age31Obj := by
  refine ⟨?_, rfl, rfl, by decide⟩
  intro T c vs v
  rw [List.map_append, applyBatch_append]
  rfl

/-- Claim C2: within one batch, function-form replace calls apply as the
left fold of the functions over the initial value in call order; with
initial value 0, two queued increments yield 2 and three yield 3, never 1. -/
theorem stateCell_fn_replace_batch_foldl :
    (∀ (T : Type) (c : StateCell T) (fs : List (T → T)),
      (applyBatch c (fs.map Update.fn)).read = fs.foldl (fun a f => f a) c.read)
    ∧ (applyBatch (StateCell.mk (0 : Int) 0)
        (List.replicate 2 (Update.fn (fun c => c + 1)))).read = 2
    ∧ (applyBatch (StateCell.mk (0 : Int) 0)
        (List.replicate 3 (Update.fn (fun c => c + 1)))).read = 3
    ∧ (applyBatch (StateCell.mk (0 : Int) 0)
        (List.replicate 3 (Update.fn (fun c => c + 1)))).read ≠ 1 := by
  refine ⟨?_, rfl, rfl, by decide⟩
  intro T c fs
  exact applyBatch_fns_value c fs

/-- Claim C3: within one batch, updates of both forms apply strictly in
call order, and a function-form update observes the cumulative result of
all preceding updates of the batch; concretely, the batch of one
value-form replace (5) followed by increment then double, from initial 0,
yields 12, while permuting the same three calls yields a different value. -/
theorem stateCell_mixed_batch_call_order :
    (∀ (T : Type) (c : StateCell T) (us : List (Update T)) (f : T → T),
      (applyBatch c (us ++ [Update.fn f])).read = f ((applyBatch c us).read))
    ∧ (∀ (T : Type) (c : StateCell T) (us : List (Update T)) (v : T),
      (applyBatch c (us ++ [Update.val v])).read = v)
    ∧ (applyBatch (StateCell.mk (0 : Int) 0)
        [Update.val 5, Update.fn (fun c => c + 1), Update.fn (fun c => c * 2)]).read = 12
    ∧ (applyBatch (StateCell.mk (0 : Int) 0)
        [Update.fn (fun c => c + 1), Update.val 5, Update.fn (fun c => c * 2)]).read = 10
    ∧ (10 : Int) ≠ 12 := by
  refine ⟨?_, ?_, rfl, rfl, by decide⟩
  · intro T c us f
    rw [applyBatch_append]
    rfl
  · intro T c us v
    rw [applyBatch_append]
    rfl

/-- Claim C5: the generation marker increases by exactly one on every
applied replace (hence strictly increases and never decreases across any
batch), and among the cell operations only replace changes the cell:
a read step leaves the cell exactly as it was. -/
theorem stateCell_generation_monotone_only_replace_mutates :
    (∀ (T : Type) (c : StateCell T) (u : Update T),
      (replace c u).generation = c.generation + 1)
    ∧ (∀ (T : Type) (c : StateCell T) (u : Update T),
      c.generation < (replace c u).generation)
    ∧ (∀ (T : Type) (c : StateCell T) (us : List (Update T)),
      c.generation ≤ (applyBatch c us).generation)
    ∧ (∀ (T : Type) (c : StateCell T), (stepOp c CellOp.readOp).1 = c) := by
  refine ⟨fun T c u => rfl, fun T c u => Nat.lt_succ_self _, ?_, fun T c => rfl⟩
  intro T c us
  rw [applyBatch_generation]
  omega

/-- Modelled from the spec: a live mounting of a view function, owning its
StateCells in slot order, a dirty mark set by replace, and the count of
re-renders the host has performed for it; the host itself is external
framework code not present in the repository's sources. -/
structure ViewInstance (T : Type) where
  cells : List (StateCell T)
  dirty : Bool
  rerenders : Nat

/-- Modelled from the spec: replace the cell at a slot index, leaving the
other slots as they are. -/
def updateCells {T : Type} : List (StateCell T) → Nat → Update T → List (StateCell T)
  | [], _, _ => []
  | c :: rest, 0, u => replace c u :: rest
  | c :: rest, i + 1, u => c :: updateCells rest i u

/-- Modelled from the spec: a replace call on one slot of a view instance;
its side effect marks the owning instance dirty, requesting a re-render. -/
def replaceSlot {T : Type} (s : ViewInstance T) (i : Nat) (u : Update T) :
    ViewInstance T :=
  { cells := updateCells s.cells i u, dirty := true, rerenders := s.rerenders }

/-- Modelled from the spec: a read of one slot returns the current value
of that cell and has no side effect on the instance. -/
def readSlot {T : Type} (s : ViewInstance T) (i : Nat) :
    ViewInstance T × Option T :=
  (s, (s.cells.get? i).map StateCell.read)

/-- Modelled from the spec: running an event handler issues its replace
calls, in call order, against the view instance. -/
def runHandler {T : Type} (s : ViewInstance T)
    (batch : List (Nat × Update T)) : ViewInstance T :=
  batch.foldl (fun st p => replaceSlot st p.1 p.2) s

/-- Modelled from the spec: when the synchronous turn ends, the host
coalesces the dirty mark into exactly one re-render, if any replace
marked the instance dirty. -/
def endTurn {T : Type} (s : ViewInstance T) : ViewInstance T :=
  if s.dirty then { cells := s.cells, dirty := false, rerenders := s.rerenders + 1 }
  else s

/-- Modelled from the spec: one synchronous event-handling turn: the
handler's replace calls apply in order, then the host re-renders once
for the coalesced batch. -/
def runTurn {T : Type} (s : ViewInstance T)
    (batch : List (Nat × Update T)) : ViewInstance T :=
  endTurn (runHandler s batch)

theorem runHandler_rerenders {T : Type} (batch : List (Nat × Update T))
    (s : ViewInstance T) : (runHandler s batch).rerenders = s.rerenders := by
  induction batch generalizing s with
  | nil => rfl
  | cons b bs ih => exact ih (replaceSlot s b.1 b.2)

theorem runHandler_dirty_of_dirty {T : Type} (batch : List (Nat × Update T))
    (s : ViewInstance T) (h : s.dirty = true) :
    (runHandler s batch).dirty = true := by
  induction batch generalizing s with
  | nil => exact h
  | cons b bs ih => exact ih (replaceSlot s b.1 b.2) rfl

theorem runHandler_cons_dirty {T : Type} (b : Nat × Update T)
    (bs : List (Nat × Update T)) (s : ViewInstance T) :
    (runHandler s (b :: bs)).dirty = true :=
  runHandler_dirty_of_dirty bs (replaceSlot s b.1 b.2) rfl

/-- Claim C4: a synchronous turn containing one or more replace calls ends
in exactly one re-render of the affected view instance, however many
replace calls the batch held; in particular the re-render count is never
the per-call count when the batch has at least two calls. -/
theorem host_single_rerender_per_batch :
    (∀ (T : Type) (cells : List (StateCell T)) (r : Nat)
      (b : Nat × Update T) (rest : List (Nat × Update T)),
      (runTurn (ViewInstance.mk cells false r) (b :: rest)).rerenders = r + 1)
    ∧ (∀ (T : Type) (cells : List (StateCell T)) (r : Nat)
      (b1 b2 : Nat × Update T) (rest : List (Nat × Update T)),
      (runTurn (ViewInstance.mk cells false r) (b1 :: b2 :: rest)).rerenders ≠
        r + (b1 :: b2 :: rest).length) := by
  have key : ∀ (T : Type) (cells : List (StateCell T)) (r : Nat)
      (b : Nat × Update T) (rest : List (Nat × Update T)),
      (runTurn (ViewInstance.mk cells false r) (b :: rest)).rerenders = r + 1 := by
    intro T cells r b rest
    unfold runTurn endTurn
    rw [runHandler_cons_dirty]
    simp only [if_true]
    rw [runHandler_rerenders]
  refine ⟨key, ?_⟩
  intro T cells r b1 b2 rest
  rw [key T cells r b1 (b2 :: rest)]
  simp only [List.length_cons]
  omega

/-- Claim C7: read returns the current value of the addressed cell and has
no side effects: the instance after a read is exactly the instance before,
so every slot's value and generation is unchanged, the dirty mark is
unchanged, and no re-render was requested or performed. -/
theorem read_has_no_side_effects :
    (∀ (T : Type) (s : ViewInstance T) (i : Nat),
      (readSlot s i).2 = (s.cells.get? i).map StateCell.read)
    ∧ (∀ (T : Type) (s : ViewInstance T) (i : Nat), (readSlot s i).1 = s)
    ∧ (∀ (T : Type) (s : ViewInstance T) (i j : Nat),
      ((readSlot s i).1).cells.get? j = s.cells.get? j)
    ∧ (∀ (T : Type) (s : ViewInstance T) (i : Nat),
      ((readSlot s i).1).dirty = s.dirty ∧
      ((readSlot s i).1).rerenders = s.rerenders)
    ∧ (∀ (T : Type) (c : StateCell T), c.read = c.value) :=
  ⟨fun T s i => rfl, fun T s i => rfl, fun T s i j => rfl,
   fun T s i => ⟨rfl, rfl⟩, fun T c => rfl⟩

/-- A declarative UI description tree, in first-child / next-sibling form:
an element node holds its tag, its string attributes and its children
(written as a `seq`-chain ended by `nil`); a text node holds its text. -/
inductive UITree where
  | text (s : String)
  | elem (tag : String) (attrs : List (String × String)) (children : UITree)
  | nil
  | seq (a b : UITree)
deriving DecidableEq

/-- Builds the `seq`-chain of a list of sibling nodes. -/
def UITree.ofList : List UITree → UITree
  | [] => .nil
  | t :: ts => .seq t (UITree.ofList ts)

/-- The first element with the given tag, in document order. -/
def UITree.findTag (tag : String) : UITree → Option UITree
  | .text _ => none
  | .nil => none
  | .seq a b =>
      match UITree.findTag tag a with
      | some n => some n
      | none => UITree.findTag tag b
  | .elem t attrs children =>
      if t = tag then some (.elem t attrs children)
      else UITree.findTag tag children

/-- The value of an attribute of an element node, if present. -/
def UITree.attrOf (a : String) : UITree → Option String
  | .elem _ attrs _ => attrs.lookup a
  | _ => none

/-- The value of attribute a on the first element with the given tag. -/
def UITree.findAttrIn (tag a : String) (t : UITree) : Option String :=
  (t.findTag tag).bind (UITree.attrOf a)

/-- All text of a tree, concatenated in document order. -/
def UITree.allText : UITree → String
  | .text s => s
  | .nil => ""
  | .seq a b => a.allText ++ b.allText
  | .elem _ _ children => children.allText

/-- A side effect a view function performs while rendering. -/
inductive Effect where
  | log (s : String)
deriving DecidableEq

/-- The initial value of GreetUser's single state slot: useState(""). -/
def GreetUser.initialName : String := ""

/-- GreetUser's input onChange handler: a value-form replace with the
event's target value, from setName(event.target.value). -/
def GreetUser.onChange (t : String) : Update String := Update.val t

/-- The UI description GreetUser returns for a given current name,
translated node for node from the JSX of
src/components/GreetUser/index.jsx. -/
def GreetUser.render (name : String) : UITree :=
  .elem "div" [("className", "bg")] (.ofList [
    .elem "div" [("className", "container")] (.ofList [
      .elem "div" [] (
        .elem "input"
          [("type", "text"), ("placeholder", "Enter your name here....."),
           ("className", "userInput"), ("value", name)] .nil),
      .elem "div" [("className", "text")] (
        .elem "span" [] (.ofList [.text "Hello ", .text name]))])])

/-- The console.log effects GreetUser performs on each invocation, from
the two console.log statements of the source (the constant re-render
message and the current name). -/
def GreetUser.logs (name : String) : List Effect :=
  [Effect.log "Component Rerendred", Effect.log name]

/-- One invocation of the GreetUser view function: the UI tree it returns
together with the trace of effects it performs. -/
def GreetUser.renderE (name : String) : UITree × List Effect :=
  (GreetUser.render name, GreetUser.logs name)

/-- The initial value of Counter's single state slot: useState(0). -/
def Counter.initialCount : Int := 0

/-- Counter's button onClick handler: a value-form replace with the
closure-captured render-time count plus one, from setCount(count + 1). -/
def Counter.onClick (count : Int) : Update Int := Update.val (count + 1)

/-- The UI description Counter returns for a given current count,
translated node for node from the JSX of src/component/counter/index.jsx. -/
def Counter.render (count : Int) : UITree :=
  .elem "div" [("className", "bg")] (
    .elem "div" [("className", "counter-card")] (.ofList [
      .elem "p" [("className", "counter-text")] (.ofList [
        .text "You Clicked ",
        .elem "span" [("className", "counter")] (.text (toString count)),
        .text " Times"]),
      .elem "div" [] (
        .elem "button" [("className", "increase-btn")] (.text "Increase"))]))

/-- One invocation of the Counter view function: the UI tree it returns
together with its (empty) trace of effects. -/
def Counter.renderE (count : Int) : UITree × List Effect :=
  (Counter.render count, [])

/-- Claim C6, counterexample: the claim says the view functions perform no
side effects beyond reading the cells, but GreetUser performs console.log
effects on every invocation — already at the initial empty name its effect
trace is nonempty. -/
theorem viewFunction_effect_free_counterexample :
    ¬ ((GreetUser.renderE "").2 = []) := by decide

/-- Claim C6 as amended: each view function is a deterministic pure mapping
from its current state value to a UI description tree — equal state values
give identical trees and identical effect traces — and Counter performs no
side effects, while GreetUser's only side effects beyond reading the cell
are its two deterministic console.log emissions per invocation. -/
theorem viewFunction_pure_mapping_with_logging :
    (∀ (s1 s2 : String), s1 = s2 → GreetUser.renderE s1 = GreetUser.renderE s2)
    ∧ (∀ (n1 n2 : Int), n1 = n2 → Counter.renderE n1 = Counter.renderE n2)
    ∧ (∀ (n : Int), (Counter.renderE n).2 = [])
    ∧ (∀ (s : String),
        (GreetUser.renderE s).2 = [Effect.log "Component Rerendred", Effect.log s]) :=
  ⟨fun s1 s2 h => congrArg GreetUser.renderE h,
   fun n1 n2 h => congrArg Counter.renderE h,
   fun n => rfl, fun s => rfl⟩

/-- Witness for C6's amended theorem at concrete inputs. -/
theorem viewFunction_pure_mapping_with_logging_witness :
    GreetUser.renderE "Ada" = GreetUser.renderE "Ada"
    ∧ (Counter.renderE 0).2 = [] :=
  ⟨viewFunction_pure_mapping_with_logging.1 "Ada" "Ada" rfl,
   viewFunction_pure_mapping_with_logging.2.2.1 0⟩

/-- Claim C8: Counter's increment handler is a value-form replace of the
closure-captured render-time count plus one, so any number of handler
invocations queued within one batch (before any re-render) leaves the
count at the render-time count plus one — never plus the number of clicks
when there are two or more. -/
theorem counter_handler_stale_capture :
    (∀ (c : Int), Counter.onClick c = Update.val (c + 1))
    ∧ (∀ (c0 : Int) (g k : Nat),
        (applyBatch (StateCell.mk c0 g)
          (List.replicate (k + 1) (Counter.onClick c0))).read = c0 + 1)
    ∧ (∀ (c0 : Int) (g k : Nat),
        (applyBatch (StateCell.mk c0 g)
          (List.replicate (k + 2) (Counter.onClick c0))).read ≠ c0 + (k : Int) + 2) := by
  have hval : ∀ (c0 : Int) (g k : Nat),
      (applyBatch (StateCell.mk c0 g)
        (List.replicate (k + 1) (Counter.onClick c0))).read = c0 + 1 := by
    intro c0 g k
    exact applyBatch_replicate_val_value (StateCell.mk c0 g) (c0 + 1) k
  refine ⟨fun c => rfl, hval, ?_⟩
  intro c0 g k
  rw [hval c0 g (k + 1)]
  omega

theorem string_append_empty (s : String) : s ++ "" = s := by
  cases s with
  | mk data => show String.mk (data ++ []) = String.mk data
               rw [List.append_nil]

theorem greetUser_input_value (name : String) :
    UITree.findAttrIn "input" "value" (GreetUser.render name) = some name := rfl

theorem greetUser_span_text (name : String) :
    (UITree.findTag "span" (GreetUser.render name)).map UITree.allText =
      some ("Hello " ++ name) := by
  show some ("Hello " ++ (name ++ "")) = some ("Hello " ++ name)
  rw [string_append_empty]

/-- Claim C9: GreetUser's input is fully controlled by the state cell: in
every render the input element's value attribute and the greeting's text
both show the cell's current value, and after an onChange event carrying
text t is applied, the next render shows t in both places. -/
theorem greetUser_controlled_input :
    (∀ (name : String),
      UITree.findAttrIn "input" "value" (GreetUser.render name) = some name
      ∧ (UITree.findTag "span" (GreetUser.render name)).map UITree.allText =
          some ("Hello " ++ name))
    ∧ (∀ (name t : String),
      UITree.findAttrIn "input" "value"
        (GreetUser.render
          ((applyBatch (StateCell.mk name 0) [GreetUser.onChange t]).read)) = some t
      ∧ (UITree.findTag "span"
          (GreetUser.render
            ((applyBatch (StateCell.mk name 0) [GreetUser.onChange t]).read))).map
          UITree.allText = some ("Hello " ++ t)) :=
  ⟨fun name => ⟨greetUser_input_value name, greetUser_span_text name⟩,
   fun name t => ⟨greetUser_input_value t, greetUser_span_text t⟩⟩

/-- The final count after one batch of k handler clicks issued against the
render-time count c: the value the cell holds once the host applies the k
queued value-form replaces with c + 1. -/
def Counter.clickBatch (c : Int) (k : Nat) : Int :=
  (applyBatch (StateCell.mk c 0) (List.replicate k (Counter.onClick c))).read

/-- The count after a sequence of applied batches, each re-render giving
the next batch's handlers the then-current count. -/
def Counter.runBatches (c : Int) (bs : List Nat) : Int :=
  bs.foldl Counter.clickBatch c

theorem counter_clickBatch_eq (c : Int) (k : Nat) :
    Counter.clickBatch c k = if k = 0 then c else c + 1 := by
  cases k with
  | zero => rfl
  | succ n =>
      show (applyBatch (StateCell.mk c 0)
        (List.replicate (n + 1) (Update.val (c + 1)))).value = if n + 1 = 0 then c else c + 1
      rw [applyBatch_replicate_val_value (StateCell.mk c 0) (c + 1) n]
      simp

theorem counter_le_clickBatch (c : Int) (k : Nat) : c ≤ Counter.clickBatch c k := by
  rw [counter_clickBatch_eq]
  split <;> omega

theorem counter_le_runBatches (bs : List Nat) (c : Int) :
    c ≤ Counter.runBatches c bs := by
  induction bs generalizing c with
  | nil => exact le_refl c
  | cons k bs ih =>
      exact le_trans (counter_le_clickBatch c k) (ih (Counter.clickBatch c k))

/-- Claim C10: Counter's count starts at 0 and its only transition is the
increment handler's replace with count + 1, so the count reached after any
sequence of applied batches is a non-negative integer and never decreases
when further batches are applied. -/
theorem counter_count_nonneg_monotone :
    Counter.initialCount = 0
    ∧ Counter.runBatches Counter.initialCount [] = 0
    ∧ (∀ (bs : List Nat), 0 ≤ Counter.runBatches Counter.initialCount bs)
    ∧ (∀ (bs1 bs2 : List Nat),
        Counter.runBatches Counter.initialCount bs1 ≤
          Counter.runBatches Counter.initialCount (bs1 ++ bs2)) := by
  refine ⟨rfl, rfl, fun bs => counter_le_runBatches bs 0, fun bs1 bs2 => ?_⟩
  have h : Counter.runBatches Counter.initialCount (bs1 ++ bs2) =
      Counter.runBatches (Counter.runBatches Counter.initialCount bs1) bs2 := by
    simp [Counter.runBatches, List.foldl_append]
  rw [h]
  exact counter_le_runBatches bs2 _
